import Mathlib

/-!
Verification of the Game of Life grid engine (gameoflife.py).

The program keeps a rectangular grid of cells (`0` dead, `1` alive) and
updates it generation by generation under a configurable birth/survival
rule, sampling either the Moore or the vonNeumann neighbourhood with
periodic (toroidal) boundary conditions.

This file embeds the grid operations of the `Grid` class shallowly:
the cell matrix is a `List (List Int)` (numpy array of ints), the grid
object is a structure carrying the rule lists, the neighbourhood type
and the dimensions, and each Python method becomes a Lean function that
mirrors the statements of the source line by line.  The theorems at the
end of the file settle the specification claims about these operations.
-/

/-- The neighbourhood type, `self.neighbourhood_type` after
`set_neighbourhood_type` has lower-cased and checked it: either
`"moore"` or `"vonneumann"`. -/
inductive NType where
  | moore
  | vonneumann
deriving DecidableEq, Repr

/-- The state of a `Grid` object from gameoflife.py: the rule lists
`self.born` and `self.survive`, the neighbourhood type, the dimensions
`self.height` and `self.width`, and the cell matrix `self.grid`.
Cells are `Int` because a grid loaded from a file may hold any integer;
the update rule itself only ever produces 0 or 1. -/
structure Grid where
  born : List Int
  survive : List Int
  ntype : NType
  height : Nat
  width : Nat
  cells : List (List Int)
deriving DecidableEq, Repr

/-- Read entry `(i, j)` of a cell matrix, defaulting to 0 out of range
(the source never reads out of range; theorems establish the bounds). -/
def getCell (b : List (List Int)) (i j : Nat) : Int :=
  (b.getD i []).getD j 0

/-- Write value `v` at entry `(i, j)` of a cell matrix, the effect of
the numpy assignment `b[i, j] = v` for in-range indices. -/
def setCell (b : List (List Int)) (i j : Nat) (v : Int) : List (List Int) :=
  b.set i ((b.getD i []).set j v)

/-- `np.mod(x, m)`: the non-negative remainder, used by `Grid._view`
to wrap an index onto the torus. -/
def wrap (x : Int) (m : Nat) : Nat := (x % (m : Int)).toNat

/-- The list of (row, column) index pairs read by `Grid._view(i, j)`,
in the order the view holds them.  For `vonneumann` the view is the
five cells `(i, j-1), (i, j), (i, j+1), (i-1, j), (i+1, j)`; for
`moore` it is the full 3 by 3 block around `(i, j)` in row-major order
(`np.ix_` of the wrapped rows and columns).  Every index is wrapped
with `np.mod` by the corresponding dimension. -/
def viewIdx (g : Grid) (i j : Int) : List (Nat × Nat) :=
  match g.ntype with
  | .vonneumann =>
      [(wrap i g.height, wrap (j-1) g.width),
       (wrap i g.height, wrap j g.width),
       (wrap i g.height, wrap (j+1) g.width),
       (wrap (i-1) g.height, wrap j g.width),
       (wrap (i+1) g.height, wrap j g.width)]
  | .moore =>
      [(wrap (i-1) g.height, wrap (j-1) g.width),
       (wrap (i-1) g.height, wrap j g.width),
       (wrap (i-1) g.height, wrap (j+1) g.width),
       (wrap i g.height, wrap (j-1) g.width),
       (wrap i g.height, wrap j g.width),
       (wrap i g.height, wrap (j+1) g.width),
       (wrap (i+1) g.height, wrap (j-1) g.width),
       (wrap (i+1) g.height, wrap j g.width),
       (wrap (i+1) g.height, wrap (j+1) g.width)]

/-- Position of the centre cell inside the view returned by
`Grid._view`: `view[1]` for vonneumann, `view[1, 1]` (index 4 of the
row-major flattening) for moore. -/
def centerPos (g : Grid) : Nat :=
  match g.ntype with
  | .vonneumann => 1
  | .moore => 4

/-- The view of cell `(i, j)` and its neighbourhood built by
`Grid._view`: the grid values at `viewIdx`, flattened in order. -/
def view (g : Grid) (i j : Int) : List Int :=
  (viewIdx g i j).map (fun p => getCell g.cells p.1 p.2)

/-- The `cell` value returned by `Grid._view`: the centre entry of the
view. -/
def cellValue (g : Grid) (i j : Int) : Int :=
  (view g i j).getD (centerPos g) 0

/-- The index pairs of the view with the centre removed: the
neighbours proper of cell `(i, j)`. -/
def neighbourIdx (g : Grid) (i j : Int) : List (Nat × Nat) :=
  (viewIdx g i j).eraseIdx (centerPos g)

/-- The grid values at the neighbour indices (centre excluded). -/
def neighbours (g : Grid) (i j : Int) : List Int :=
  (neighbourIdx g i j).map (fun p => getCell g.cells p.1 p.2)

/-- `np.count_nonzero` over a flattened view, as an integer. -/
def count_nonzero (l : List Int) : Int :=
  ((l.filter (fun x => x != 0)).length : Int)

/-- `neighbour_alive_count` in `Grid._update_cell`:
`np.count_nonzero(view) - cell_value`. -/
def neighbour_alive_count (g : Grid) (i j : Int) : Int :=
  count_nonzero (view g i j) - cellValue g i j

/-- The rule applied at the end of `Grid._update_cell` (the
`if`/`elif`/`else` of lines 416-421): birth for a dead cell whose
neighbour count is in `born`, survival for a live cell whose count is
in `survive`, death otherwise. -/
def decide_rule (born survive : List Int) (cell count : Int) : Int :=
  if cell = 0 ∧ count ∈ born then 1
  else if cell = 1 ∧ count ∈ survive then 1
  else 0

/-- `Grid._update_cell(i, j)`: sample the view, count the live
neighbours, apply the rule. -/
def update_cell (g : Grid) (i j : Int) : Int :=
  decide_rule g.born g.survive (cellValue g i j) (neighbour_alive_count g i j)

/-- The double loop of `Grid.update_grid`, writing
`_update_cell(i, j)` into cell `(i, j)` of the buffer `buf`
(`token_grid`), row by row, column by column. -/
def update_pass (g : Grid) (buf : List (List Int)) : List (List Int) :=
  (List.range g.height).foldl
    (fun b i =>
      (List.range g.width).foldl
        (fun b2 j => setCell b2 i j (update_cell g i (j : Int))) b)
    buf

/-- `np.empty_like(self.grid)`: a buffer of the same shape as the cell
matrix.  Its initial contents are irrelevant (the update pass writes
every entry; the buffer-independence theorem below makes this formal),
so they are taken to be 0 here. -/
def empty_like (b : List (List Int)) : List (List Int) :=
  b.map (fun r => r.map (fun _ => (0 : Int)))

/-- `Grid.update_grid`: run the update pass into a fresh buffer and
replace the old grid with the result. -/
def update_grid (g : Grid) : Grid :=
  { g with cells := update_pass g (empty_like g.cells) }

/-- Row `i` of the pointwise rule image of the grid. -/
def image_row (g : Grid) (i : Nat) : List Int :=
  (List.range g.width).map (fun (j : Nat) => update_cell g i j)

/-- The pointwise rule image of the grid: entry `(i, j)` is
`_update_cell(i, j)` of the old grid, for every coordinate. -/
def grid_image (g : Grid) : List (List Int) :=
  (List.range g.height).map (fun i => image_row g i)

/-- A Python value passed as a rule argument to `Grid.set_rules`:
an int, a list of ints, or anything else (which the method rejects
with a `TypeError`). -/
inductive PyVal where
  | int (n : Int)
  | list (l : List Int)
  | other
deriving DecidableEq, Repr

/-- `Grid.set_rules(born, survive)`: store the rule lists (an int is
wrapped into a one-element list); a value of any other type raises a
`TypeError`.  No compatibility check against the neighbourhood type is
performed here. -/
def Grid.set_rules (g : Grid) (born survive : PyVal) : Except String Grid := do
  let bl ← match born with
    | .list l => Except.ok l
    | .int n => Except.ok [n]
    | .other => Except.error "The type of born in Grid.set_rules() is invalid."
  let sl ← match survive with
    | .list l => Except.ok l
    | .int n => Except.ok [n]
    | .other => Except.error "The type of survive in Grid.set_rules() is invalid."
  Except.ok { g with born := bl, survive := sl }

/-- `Grid.get_rules()`: the string `B...S...` built by joining the
string forms of the stored `born` list and then the stored `survive`
list, in their stored order. -/
def Grid.get_rules (g : Grid) : String :=
  "B" ++ String.join (g.born.map toString) ++ "/S" ++ String.join (g.survive.map toString)

/-- Python `max` over a rule list (the source only applies it to
nonempty lists; the head is used as the base so the fold is total). -/
def listMax (l : List Int) : Int := l.foldl max (l.headD 0)

/-- The compatibility test of `Grid.__init__` (lines 72-77): a moore
neighbourhood with a rule entry above 8, or a vonneumann neighbourhood
with a rule entry above 4, is incompatible. -/
def rules_incompatible (ntype : NType) (born survive : List Int) : Bool :=
  let over_eight := listMax born > 8 || listMax survive > 8
  let over_four := listMax born > 4 || listMax survive > 4
  (ntype == NType.moore && over_eight) || (ntype == NType.vonneumann && over_four)

/-- `Grid.__init__(width, height)` with explicit dimensions, no file
name and `random=False`: set the default rules (born=[3],
survive=[2,3]) and the moore neighbourhood, run the compatibility
check on them, reject dimensions below 5, subtract 2 from each
dimension for the border, and build an all-dead cell matrix of the
resulting shape. -/
def Grid.init (width height : Nat) : Except String Grid :=
  let born : List Int := [3]
  let survive : List Int := [2, 3]
  let ntype := NType.moore
  if rules_incompatible ntype born survive then
    Except.error "Your neighbourhood type and rules are incompatible."
  else if width < 5 ∨ height < 5 then
    Except.error "Please choose a bigger grid, at least 5x5."
  else
    Except.ok { born := born, survive := survive, ntype := ntype,
                height := height - 2, width := width - 2,
                cells := List.replicate (height - 2) (List.replicate (width - 2) (0 : Int)) }

/-- Resolve a Python/numpy index `k` against a dimension of size `m`:
an index in `[0, m)` is itself, an index in `[-m, 0)` counts from the
end, anything else raises an `IndexError`. -/
def npIndex (m : Nat) (k : Int) : Option Nat :=
  if 0 ≤ k ∧ k < (m : Int) then some k.toNat
  else if -(m : Int) ≤ k ∧ k < 0 then some (k + m).toNat
  else none

/-- The numpy assignment `self.grid[ki, kj] = v` with Python index
semantics: both indices are resolved against the grid dimensions
(negative indices wrap from the end), and an out-of-range index is an
`IndexError` (`none`). -/
def npWriteCell (g : Grid) (ki kj : Int) (v : Int) : Option Grid :=
  match npIndex g.height ki, npIndex g.width kj with
  | some i, some j => some { g with cells := setCell g.cells i j v }
  | _, _ => none

/-- `Grid.centre_grid(array)`: compute the centering offsets
`(self.height - h) // 2` and `(self.width - w) // 2` (Python floor
division, which is `Int` division in Lean for the positive divisor 2)
and write every pattern entry at its offset position, one numpy
assignment per entry, in row-major order.  No size check is performed
before the writes. -/
def Grid.centre_grid (g : Grid) (pat : List (List Int)) : Option Grid :=
  let h := pat.length
  let w := (pat.headD []).length
  let hdiff : Int := ((g.height : Int) - (h : Int)) / 2
  let wdiff : Int := ((g.width : Int) - (w : Int)) / 2
  (List.range h).foldlM
    (fun acc i =>
      (List.range w).foldlM
        (fun acc2 j =>
          npWriteCell acc2 (Int.ofNat i + hdiff) (Int.ofNat j + wdiff)
            ((pat.getD i []).getD j 0))
        acc)
    g

/-- `np.count_nonzero(self.grid)`: the number of nonzero cells. -/
def countNonzeroCells (b : List (List Int)) : Nat :=
  (b.map (fun r => (r.filter (fun x => x != 0)).length)).sum

/-- `self.grid.size`: the total number of cells. -/
def gridSize (b : List (List Int)) : Nat :=
  (b.map List.length).sum

/-- `Grid.all_dead_or_alive()`: every cell dead (no nonzero cell) or
every cell alive (every cell nonzero). -/
def Grid.all_dead_or_alive (g : Grid) : Bool :=
  countNonzeroCells g.cells == 0 || countNonzeroCells g.cells == gridSize g.cells

/-- `k` applications of `Grid.update_grid`. -/
def iterGrid (g : Grid) : Nat → Grid
  | 0 => g
  | k+1 => update_grid (iterGrid g k)

/-- The loop body of `Grid.run(niter)` for a given iteration budget:
each step updates the grid, emits the updated grid as a frame
(`iterate` prints it), and only then checks `all_dead_or_alive`,
breaking out of the loop when it holds.  The returned list is the
sequence of emitted frames. -/
def Grid.run_frames (g : Grid) : Nat → List Grid
  | 0 => []
  | n+1 =>
    if (update_grid g).all_dead_or_alive then [update_grid g]
    else update_grid g :: (update_grid g).run_frames n

/-- A small concrete grid with the default configuration (Conway
rules, moore neighbourhood), used by witnesses. -/
def conway_grid : Grid :=
  { born := [3], survive := [2, 3], ntype := NType.moore,
    height := 3, width := 3,
    cells := [[0, 0, 0], [0, 1, 0], [0, 0, 0]] }

/-- A 5 by 5 grid holding a blinker, used by witnesses. -/
def blinker_grid : Grid :=
  { born := [3], survive := [2, 3], ntype := NType.moore,
    height := 5, width := 5,
    cells := [[0, 0, 0, 0, 0], [0, 0, 0, 0, 0], [0, 1, 1, 1, 0],
              [0, 0, 0, 0, 0], [0, 0, 0, 0, 0]] }

/-- An all-dead 9 by 9 grid, used by the centering witnesses. -/
def nine_grid : Grid :=
  { born := [3], survive := [2, 3], ntype := NType.moore,
    height := 9, width := 9,
    cells := List.replicate 9 (List.replicate 9 (0 : Int)) }

/-- A 3 by 3 all-alive pattern, used by the centering witnesses. -/
def three_pattern : List (List Int) :=
  [[1, 1, 1], [1, 1, 1], [1, 1, 1]]

/-- A 4-row by 3-column pattern, taller than a 3-row grid: used to
exercise centering of a pattern that does not fit. -/
def tall_pattern : List (List Int) :=
  [[1, 1, 1], [2, 2, 2], [3, 3, 3], [4, 4, 4]]

/-- A buffer whose entries are all 7: passing it to the update pass
shows the result does not depend on the initial buffer contents. -/
def seven_buffer : List (List Int) :=
  List.replicate 3 (List.replicate 3 (7 : Int))

/-!
## Helper lemmas

Generic facts about folds of `List.set`, used to turn the imperative
write loops of `update_grid` and `centre_grid` into explicit list
surgery.
-/

theorem set_getD_self {α : Type} (d : α) :
    ∀ (l : List α) (i : Nat), l.set i (l.getD i d) = l
  | [], _ => by simp
  | a :: l, 0 => by simp
  | a :: l, i+1 => congrArg (fun t => a :: t) (set_getD_self d l i)

theorem foldl_set_range {α : Type} (d : α) (F : Nat → α → α) (off : Nat) :
    ∀ (w : Nat) (r : List α), off + w ≤ r.length →
    (List.range w).foldl (fun acc j => acc.set (off + j) (F j (acc.getD (off + j) d))) r
      = r.take off ++ (List.range w).map (fun j => F j (r.getD (off + j) d))
          ++ r.drop (off + w)
  | 0, r, _ => by simp
  | w+1, r, hlen => by
    have hw : off + w ≤ r.length := by omega
    have hlt : off + w < r.length := by omega
    rw [List.range_succ, List.foldl_append, foldl_set_range d F off w r hw,
      List.map_append, List.foldl_cons, List.foldl_nil]
    set T := r.take off with hT
    set M := (List.range w).map (fun j => F j (r.getD (off + j) d)) with hM
    have hSlen : (T ++ M).length = off + w := by
      rw [List.length_append, hT, hM, List.length_take, List.length_map,
        List.length_range]
      omega
    have hgd : ((T ++ M) ++ r.drop (off + w)).getD (off + w) d = r.getD (off + w) d := by
      rw [List.getD_append_right _ _ _ _ (le_of_eq hSlen), hSlen, Nat.sub_self,
        List.drop_eq_getElem_cons hlt]
      simp only [List.getD_cons_zero]
      exact (List.getD_eq_getElem r d hlt).symm
    have hPlt : off + w < ((T ++ M) ++ r.drop (off + w)).length := by
      rw [List.length_append, hSlen, List.length_drop]
      omega
    rw [hgd, List.set_eq_take_cons_drop _ hPlt, List.take_left' hSlen]
    have hdrop : ((T ++ M) ++ r.drop (off + w)).drop (off + w + 1)
        = r.drop (off + w + 1) := by
      calc ((T ++ M) ++ r.drop (off + w)).drop (off + w + 1)
          = (((T ++ M) ++ r.drop (off + w)).drop (off + w)).drop 1 :=
            (List.drop_drop 1 (off + w) _).symm
        _ = (r.drop (off + w)).drop 1 := by rw [List.drop_left' hSlen]
        _ = r.drop (off + w + 1) := List.drop_drop 1 (off + w) r
    rw [hdrop]
    simp only [List.append_assoc, List.map_cons, List.map_nil,
      List.singleton_append, Nat.add_zero]
    rfl

theorem foldl_setCell_row (i : Nat) (col : Nat → Nat) (v : Nat → Int) :
    ∀ (js : List Nat) (b : List (List Int)), i < b.length →
    js.foldl (fun acc j => setCell acc i (col j) (v j)) b
      = b.set i (js.foldl (fun r j => r.set (col j) (v j)) (b.getD i []))
  | [], b, hi => by
    simp only [List.foldl_nil]
    exact (set_getD_self [] b i).symm
  | j :: js, b, hi => by
    rw [List.foldl_cons, List.foldl_cons]
    have hi2 : i < (setCell b i (col j) (v j)).length := by
      simpa [setCell] using hi
    rw [foldl_setCell_row i col v js _ hi2]
    unfold setCell
    rw [List.set_set]
    congr 2
    rw [List.getD_eq_getElem?_getD, List.getElem?_set_self (by simpa using hi)]
    rfl

theorem foldlM_option_foldl {α β : Type} (P : α → Prop) (f : α → β → α)
    (fm : α → β → Option α) :
    ∀ (l : List β) (init : α), P init →
    (∀ a b, P a → b ∈ l → fm a b = some (f a b) ∧ P (f a b)) →
    l.foldlM fm init = some (l.foldl f init)
  | [], init, _, _ => rfl
  | b :: bs, init, hinit, h => by
    have hb := h init b hinit (by simp)
    rw [List.foldlM_cons, hb.1]
    show (bs.foldlM fm (f init b)) = _
    rw [foldlM_option_foldl P f fm bs (f init b) hb.2
      (fun a c ha hc => h a c ha (by simp [hc]))]
    rfl

theorem foldl_set_offset {α : Type} (d : α) (f : Nat → α) (off w : Nat) (r : List α)
    (hlen : off + w ≤ r.length) :
    (List.range w).foldl (fun acc j => acc.set (off + j) (f j)) r
      = r.take off ++ (List.range w).map f ++ r.drop (off + w) := by
  have hext : (List.range w).foldl (fun acc j => acc.set (off + j) (f j)) r
      = (List.range w).foldl
          (fun acc j => acc.set (off + j) ((fun j _ => f j) j (acc.getD (off + j) d))) r :=
    List.foldl_ext _ _ r (fun acc j _ => rfl)
  rw [hext, foldl_set_range d (fun j _ => f j) off w r hlen]

theorem foldl_set_exact {α : Type} (d : α) (f : Nat → α) (w : Nat) (r : List α)
    (hlen : r.length = w) :
    (List.range w).foldl (fun acc j => acc.set j (f j)) r = (List.range w).map f := by
  have hext : (List.range w).foldl (fun acc j => acc.set j (f j)) r
      = (List.range w).foldl (fun acc j => acc.set (0 + j) (f j)) r :=
    List.foldl_ext _ _ r (fun acc j _ => by rw [Nat.zero_add])
  rw [hext, foldl_set_offset d f 0 w r (by omega)]
  simp [← hlen, List.drop_length]

theorem update_pass_steps (g : Grid) :
    ∀ (k : Nat) (b : List (List Int)), b.length = g.height →
    (∀ r ∈ b, r.length = g.width) → k ≤ g.height →
    (List.range k).foldl
      (fun b2 i => (List.range g.width).foldl
        (fun b3 j => setCell b3 i j (update_cell g i (j : Int))) b2) b
      = (List.range k).map (image_row g) ++ b.drop k
  | 0, b, _, _, _ => by simp
  | k+1, b, hblen, hbrow, hk => by
    have hk2 : k ≤ g.height := by omega
    rw [List.range_succ, List.foldl_append, update_pass_steps g k b hblen hbrow hk2,
      List.foldl_cons, List.foldl_nil]
    set P := (List.range k).map (image_row g) ++ b.drop k with hP
    have hMlen : ((List.range k).map (image_row g)).length = k := by simp
    have hkb : k < b.length := by omega
    have hPlen : k < P.length := by
      rw [hP, List.length_append, hMlen, List.length_drop]
      omega
    rw [foldl_setCell_row k (fun j => j) (fun j => update_cell g k (j : Int))
      (List.range g.width) P hPlen]
    have hPk : P.getD k [] = b.getD k [] := by
      rw [hP, List.getD_append_right _ _ _ _ (le_of_eq hMlen), hMlen, Nat.sub_self,
        List.drop_eq_getElem_cons hkb]
      simp only [List.getD_cons_zero]
      exact (List.getD_eq_getElem b [] hkb).symm
    have hrowlen : (b.getD k []).length = g.width := by
      rw [List.getD_eq_getElem b [] hkb]
      exact hbrow _ (List.getElem_mem hkb)
    have hrowfold : (List.range g.width).foldl
        (fun r j => r.set j (update_cell g k (j : Int))) (P.getD k [])
        = image_row g k := by
      rw [hPk, foldl_set_exact (0 : Int) (fun j => update_cell g k (j : Int)) g.width
        (b.getD k []) hrowlen]
      simp only [image_row]
    rw [hrowfold, List.set_eq_take_cons_drop _ hPlen, hP, List.take_left' hMlen]
    have hdropP : (((List.range k).map (image_row g)) ++ b.drop k).drop (k + 1)
        = b.drop (k + 1) := by
      calc (((List.range k).map (image_row g)) ++ b.drop k).drop (k + 1)
          = ((((List.range k).map (image_row g)) ++ b.drop k).drop k).drop 1 :=
            (List.drop_drop 1 k _).symm
        _ = (b.drop k).drop 1 := by rw [List.drop_left' hMlen]
        _ = b.drop (k + 1) := List.drop_drop 1 k b
    rw [hdropP, List.map_append]
    simp [List.append_assoc]

theorem update_pass_eq (g : Grid) (buf : List (List Int))
    (hblen : buf.length = g.height) (hbrow : ∀ r ∈ buf, r.length = g.width) :
    update_pass g buf = grid_image g := by
  unfold update_pass grid_image
  rw [update_pass_steps g g.height buf hblen hbrow (le_refl _)]
  rw [← hblen, List.drop_length, List.append_nil]

theorem update_grid_cells (g : Grid)
    (hlen : g.cells.length = g.height) (hrow : ∀ r ∈ g.cells, r.length = g.width) :
    (update_grid g).cells = grid_image g := by
  unfold update_grid
  exact update_pass_eq g (empty_like g.cells)
    (by rw [empty_like, List.length_map]; exact hlen)
    (by
      intro r hr
      rw [empty_like] at hr
      obtain ⟨r0, hr0, rfl⟩ := List.mem_map.mp hr
      rw [List.length_map]
      exact hrow r0 hr0)

theorem decide_rule_binary (born survive : List Int) (cell count : Int) :
    decide_rule born survive cell count = 0 ∨ decide_rule born survive cell count = 1 := by
  unfold decide_rule
  split
  · exact Or.inr rfl
  split
  · exact Or.inr rfl
  · exact Or.inl rfl

/-!
## Claim theorems
-/

/-- Claim C1: `update_grid` computes every cell of the next generation
by `_update_cell` (sample then rule) reading only the old grid, writes
the results into a separate buffer, and swaps the buffer in wholesale:
for any buffer of the right shape the pass result is the pointwise
rule image of the old grid (so it does not depend on the buffer
contents or on the order the cells are visited), and `update_grid`
replaces the grid by exactly that image. -/
theorem c1_update_grid_double_buffer (g : Grid) (buf : List (List Int))
    (hc : g.cells.length = g.height) (hcr : ∀ r ∈ g.cells, r.length = g.width)
    (hb : buf.length = g.height) (hbr : ∀ r ∈ buf, r.length = g.width) :
    update_pass g buf = grid_image g
      ∧ update_grid g = { g with cells := grid_image g } := by
  refine ⟨update_pass_eq g buf hb hbr, ?_⟩
  have h := update_grid_cells g hc hcr
  unfold update_grid at h ⊢
  simp only at h
  rw [h]

/-- Witness for C1 at a concrete grid and a buffer full of sevens. -/
theorem c1_witness : update_pass conway_grid seven_buffer = grid_image conway_grid :=
  (c1_update_grid_double_buffer conway_grid seven_buffer (by decide) (by decide)
    (by decide) (by decide)).1

/-- Claim C2: for a cell state in {0, 1}, the rule returns 1 exactly
when a dead cell has its neighbour count in `born` or a live cell has
its count in `survive`, and returns 0 in every other case. -/
theorem c2_decide_rule_cases (born survive : List Int) (s n : Int)
    (hs : s = 0 ∨ s = 1) :
    (decide_rule born survive s n = 1 ↔ (s = 0 ∧ n ∈ born) ∨ (s = 1 ∧ n ∈ survive))
    ∧ (¬((s = 0 ∧ n ∈ born) ∨ (s = 1 ∧ n ∈ survive)) →
        decide_rule born survive s n = 0) := by
  unfold decide_rule
  rcases hs with rfl | rfl <;> split_ifs <;> simp_all

/-- Witness for C2: a dead cell with 3 live neighbours is born under
the Conway rules. -/
theorem c2_witness : decide_rule [3] [2, 3] 0 3 = 1 :=
  (c2_decide_rule_cases [3] [2, 3] 0 3 (Or.inl rfl)).1.mpr
    (Or.inl ⟨rfl, by decide⟩)

/-- Claim C10: after `update_grid`, every cell of the grid is 0 or 1,
whatever the cell values were before the call: every written value
comes from `_update_cell`, which only returns 0 or 1. -/
theorem c10_update_grid_binary (g : Grid)
    (hc : g.cells.length = g.height) (hcr : ∀ r ∈ g.cells, r.length = g.width) :
    ∀ r ∈ (update_grid g).cells, ∀ x ∈ r, x = 0 ∨ x = 1 := by
  intro r hr x hx
  rw [update_grid_cells g hc hcr] at hr
  unfold grid_image at hr
  obtain ⟨i, _, rfl⟩ := List.mem_map.mp hr
  unfold image_row at hx
  obtain ⟨j, _, rfl⟩ := List.mem_map.mp hx
  exact decide_rule_binary g.born g.survive _ _

/-- Witness for C10 at the centre cell of a concrete updated grid. -/
theorem c10_witness :
    getCell (update_grid conway_grid).cells 1 1 = 0
      ∨ getCell (update_grid conway_grid).cells 1 1 = 1 :=
  c10_update_grid_binary conway_grid (by decide) (by decide)
    ((update_grid conway_grid).cells.getD 1 []) (by decide)
    (getCell (update_grid conway_grid).cells 1 1) (by decide)

theorem wrap_lt (x : Int) (m : Nat) (hm : 0 < m) : wrap x m < m := by
  unfold wrap
  have hm2 : (0 : Int) < (m : Int) := by exact_mod_cast hm
  have h1 : x % (m : Int) < (m : Int) := Int.emod_lt_of_pos x hm2
  have h0 : 0 ≤ x % (m : Int) := Int.emod_nonneg x (by omega)
  omega

theorem getD_binary (l : List Int) (h : ∀ x ∈ l, x = 0 ∨ x = 1) (n : Nat) :
    l.getD n 0 = 0 ∨ l.getD n 0 = 1 := by
  rcases h2 : l[n]? with _ | x
  · simp [List.getD_eq_getElem?_getD, h2]
  · have hx := h x (List.getElem?_mem h2)
    simp [List.getD_eq_getElem?_getD, h2, hx]

theorem getCell_binary (b : List (List Int))
    (hb : ∀ r ∈ b, ∀ x ∈ r, x = 0 ∨ x = 1) (i j : Nat) :
    getCell b i j = 0 ∨ getCell b i j = 1 := by
  unfold getCell
  rcases h : b[i]? with _ | r
  · rw [List.getD_eq_getElem?_getD b i [], h]
    simp
  · rw [List.getD_eq_getElem?_getD b i [], h]
    exact getD_binary r (hb r (List.getElem?_mem h)) j

theorem count_nonzero_append (l1 l2 : List Int) :
    count_nonzero (l1 ++ l2) = count_nonzero l1 + count_nonzero l2 := by
  unfold count_nonzero
  rw [List.filter_append, List.length_append]
  push_cast
  ring

theorem count_nonzero_cons (x : Int) (l : List Int) :
    count_nonzero (x :: l) = (if x = 0 then 0 else 1) + count_nonzero l := by
  unfold count_nonzero
  rw [List.filter_cons]
  by_cases h : x = 0
  · simp [h]
  · simp [h]
    ring

theorem count_remove_center (A B : List Int) (x : Int) (hx : x = 0 ∨ x = 1) :
    count_nonzero (A ++ x :: B) - x = count_nonzero (A ++ B) := by
  rw [count_nonzero_append, count_nonzero_cons, count_nonzero_append]
  rcases hx with rfl | rfl
  · simp
  · simp
    omega

theorem count_eraseIdx (l : List Int) (c : Nat) (hc : c < l.length)
    (hx : l.getD c 0 = 0 ∨ l.getD c 0 = 1) :
    count_nonzero l - l.getD c 0 = count_nonzero (l.eraseIdx c) := by
  have hsplit : l = l.take c ++ l.getD c 0 :: l.drop (c + 1) := by
    rw [List.getD_eq_getElem l 0 hc]
    conv_lhs => rw [← List.take_append_drop c l]
    rw [List.drop_eq_getElem_cons hc]
  nth_rewrite 1 [hsplit]
  rw [List.eraseIdx_eq_take_drop_succ]
  exact count_remove_center (l.take c) (l.drop (c + 1)) (l.getD c 0) hx

theorem eraseIdx_map {α β : Type} (f : α → β) :
    ∀ (l : List α) (c : Nat), (l.map f).eraseIdx c = (l.eraseIdx c).map f
  | [], _ => by simp
  | a :: l, 0 => rfl
  | a :: l, c+1 => congrArg (fun t => f a :: t) (eraseIdx_map f l c)

/-- Claim C3: for every grid and both neighbourhood types, sampling
only reads row indices below the height and column indices below the
width (every index is a non-negative remainder of the dimension), and
on a grid of 0/1 cells the alive-neighbour count used by
`_update_cell` is the nonzero count of the view with the centre entry
removed: the centre cell is excluded from its own neighbour count. -/
theorem c3_sampling_bounds (g : Grid) (i j : Int)
    (hh : 0 < g.height) (hw : 0 < g.width) :
    (∀ p ∈ viewIdx g i j, p.1 < g.height ∧ p.2 < g.width)
    ∧ ((∀ r ∈ g.cells, ∀ x ∈ r, x = 0 ∨ x = 1) →
        neighbour_alive_count g i j = count_nonzero (neighbours g i j)) := by
  constructor
  · intro p hp
    have hgoal : ∀ a b : Int, p = (wrap a g.height, wrap b g.width) →
        p.1 < g.height ∧ p.2 < g.width := by
      intro a b hab
      rw [hab]
      exact ⟨wrap_lt a g.height hh, wrap_lt b g.width hw⟩
    cases hnt : g.ntype
    · simp only [viewIdx, hnt, List.mem_cons, List.not_mem_nil, or_false] at hp
      rcases hp with h | h | h | h | h | h | h | h | h <;> exact hgoal _ _ h
    · simp only [viewIdx, hnt, List.mem_cons, List.not_mem_nil, or_false] at hp
      rcases hp with h | h | h | h | h <;> exact hgoal _ _ h
  · intro hb
    have hviewb : ∀ x ∈ view g i j, x = 0 ∨ x = 1 := by
      intro x hx
      obtain ⟨p, _, rfl⟩ := List.mem_map.mp hx
      exact getCell_binary g.cells hb p.1 p.2
    have hcenter : (view g i j).getD (centerPos g) 0 = 0
        ∨ (view g i j).getD (centerPos g) 0 = 1 :=
      getD_binary (view g i j) hviewb (centerPos g)
    have hclen : centerPos g < (view g i j).length := by
      cases hnt : g.ntype <;> simp [view, viewIdx, centerPos, hnt]
    unfold neighbour_alive_count cellValue
    rw [count_eraseIdx (view g i j) (centerPos g) hclen hcenter]
    unfold view neighbours neighbourIdx
    rw [eraseIdx_map]

/-- Witness for C3 at a concrete grid and cell. -/
theorem c3_witness :
    neighbour_alive_count blinker_grid 2 2
      = count_nonzero (neighbours blinker_grid 2 2) :=
  (c3_sampling_bounds blinker_grid 2 2 (by decide) (by decide)).2 (by decide)

/-- Claim C4 (code defect): an incompatible rule/neighbourhood
combination is not rejected when the rules are set.  `set_rules`
stores survive=[9] on a moore grid and returns successfully; the
compatibility test that `Grid.__init__` encodes does classify the
combination as incompatible, but `__init__` only ever evaluates it on
the default rules born=[3], survive=[2,3], which pass it. -/
theorem c4_incompatible_rules_accepted :
    Grid.set_rules conway_grid (PyVal.list [3]) (PyVal.list [9])
      = Except.ok { conway_grid with born := [3], survive := [9] }
    ∧ rules_incompatible conway_grid.ntype [3] [9] = true
    ∧ rules_incompatible NType.moore [3] [2, 3] = false :=
  ⟨rfl, by decide, by decide⟩

/-- Counterexample to claim C7 as stated: requesting a 5 by 5 grid
passes the minimum-size check but produces a 3 by 3 cell matrix, not
5 by 5 (two is subtracted from each dimension for the border). -/
theorem c7_counterexample :
    Grid.init 5 5
      = Except.ok { born := [3], survive := [2, 3], ntype := NType.moore,
                    height := 3, width := 3,
                    cells := List.replicate 3 (List.replicate 3 0) }
    ∧ (3 : Nat) ≠ 5 :=
  ⟨rfl, by decide⟩

/-- Claim C7 (amended): construction with explicit dimensions fails
when the width or height is below 5, and otherwise builds an all-dead
grid of dimensions (height - 2) by (width - 2): two is subtracted from
each requested dimension to account for the border. -/
theorem c7_init_amended (width height : Nat) :
    (width < 5 ∨ height < 5 →
      Grid.init width height
        = Except.error "Please choose a bigger grid, at least 5x5.")
    ∧ (5 ≤ width → 5 ≤ height →
      Grid.init width height
        = Except.ok { born := [3], survive := [2, 3], ntype := NType.moore,
                      height := height - 2, width := width - 2,
                      cells := List.replicate (height - 2)
                                 (List.replicate (width - 2) 0) }) := by
  constructor
  · intro h
    unfold Grid.init
    rw [if_neg (by decide), if_pos h]
  · intro hw hh
    unfold Grid.init
    rw [if_neg (by decide), if_neg (by omega)]

/-- Witness for C7 (amended) at concrete dimensions 7 by 6. -/
theorem c7_witness :
    Grid.init 7 6
      = Except.ok { born := [3], survive := [2, 3], ntype := NType.moore,
                    height := 4, width := 5,
                    cells := List.replicate 4 (List.replicate 5 0) } :=
  (c7_init_amended 7 6).2 (by decide) (by decide)

/-- Counterexample to claim C8 as stated: with survive stored as
[3, 2], `get_rules` renders the digits in stored order, "B3/S32",
not in ascending order. -/
theorem c8_counterexample :
    Grid.get_rules { conway_grid with survive := [3, 2] } = "B3/S32"
    ∧ Grid.get_rules { conway_grid with survive := [3, 2] } ≠ "B3/S23" :=
  ⟨by decide, by decide⟩

/-- Claim C8 (amended): `get_rules` returns "B" followed by the stored
`born` digits, then "/S" and the stored `survive` digits, each group
in its stored order (sorted only if stored sorted); for born=[3],
survive=[2,3] it returns exactly "B3/S23". -/
theorem c8_get_rules_stored_order (g : Grid) :
    g.get_rules = "B" ++ String.join (g.born.map toString)
      ++ "/S" ++ String.join (g.survive.map toString)
    ∧ Grid.get_rules conway_grid = "B3/S23" :=
  ⟨rfl, by decide⟩

theorem sum_list_eq_zero_iff :
    ∀ (l : List Nat), l.sum = 0 ↔ ∀ x ∈ l, x = 0
  | [] => by simp
  | a :: l => by
    simp only [List.sum_cons, List.mem_cons, Nat.add_eq_zero]
    rw [sum_list_eq_zero_iff l]
    constructor
    · rintro ⟨ha, hl⟩ x (rfl | hx)
      · exact ha
      · exact hl x hx
    · intro h
      exact ⟨h a (Or.inl rfl), fun x hx => h x (Or.inr hx)⟩

theorem sum_map_le_sum_map {α : Type} (f g : α → Nat) :
    ∀ (l : List α), (∀ x ∈ l, f x ≤ g x) → (l.map f).sum ≤ (l.map g).sum
  | [], _ => le_refl 0
  | a :: l, h => by
    simp only [List.map_cons, List.sum_cons]
    have hrec := sum_map_le_sum_map f g l (fun x hx => h x (List.mem_cons_of_mem a hx))
    have ha := h a (List.mem_cons_self a l)
    omega

theorem sum_map_eq_iff {α : Type} (f g : α → Nat) :
    ∀ (l : List α), (∀ x ∈ l, f x ≤ g x) →
      ((l.map f).sum = (l.map g).sum ↔ ∀ x ∈ l, f x = g x)
  | [], _ => by simp
  | a :: l, h => by
    simp only [List.map_cons, List.sum_cons]
    have hrec := sum_map_eq_iff f g l (fun x hx => h x (List.mem_cons_of_mem a hx))
    have hle := sum_map_le_sum_map f g l (fun x hx => h x (List.mem_cons_of_mem a hx))
    have ha := h a (List.mem_cons_self a l)
    constructor
    · intro he x hx
      rcases List.mem_cons.mp hx with rfl | hx2
      · omega
      · exact hrec.mp (by omega) x hx2
    · intro hall
      have h1 := hall a (List.mem_cons_self a l)
      have h2 := hrec.mpr (fun x hx => hall x (List.mem_cons_of_mem a hx))
      omega

theorem all_dead_or_alive_iff (g2 : Grid) :
    g2.all_dead_or_alive = true ↔
      (∀ r ∈ g2.cells, ∀ x ∈ r, x = 0) ∨ (∀ r ∈ g2.cells, ∀ x ∈ r, x ≠ 0) := by
  unfold Grid.all_dead_or_alive countNonzeroCells gridSize
  rw [Bool.or_eq_true, beq_iff_eq, beq_iff_eq]
  have hdead : ((g2.cells.map (fun r => (r.filter (fun x => x != 0)).length)).sum = 0)
      ↔ ∀ r ∈ g2.cells, ∀ x ∈ r, x = 0 := by
    rw [sum_list_eq_zero_iff]
    constructor
    · intro h r hr x hx
      have h2 := h _ (List.mem_map_of_mem _ hr)
      rw [List.length_eq_zero, List.filter_eq_nil_iff] at h2
      have hx2 := h2 x hx
      simpa using hx2
    · intro h y hy
      obtain ⟨r, hr, rfl⟩ := List.mem_map.mp hy
      rw [List.length_eq_zero, List.filter_eq_nil_iff]
      intro x hx
      simp [h r hr x hx]
  have halive : ((g2.cells.map (fun r => (r.filter (fun x => x != 0)).length)).sum
      = (g2.cells.map List.length).sum)
      ↔ ∀ r ∈ g2.cells, ∀ x ∈ r, x ≠ 0 := by
    rw [sum_map_eq_iff _ _ _ (fun r _ => List.length_filter_le _ r)]
    constructor
    · intro h r hr x hx
      have h2 := List.filter_length_eq_length.mp (h r hr) x hx
      simpa using h2
    · intro h r hr
      apply List.filter_length_eq_length.mpr
      intro x hx
      simpa using h r hr x hx
  rw [hdead, halive]

theorem iterGrid_shift (g : Grid) :
    ∀ k : Nat, iterGrid (update_grid g) k = iterGrid g (k + 1)
  | 0 => rfl
  | k+1 => congrArg update_grid (iterGrid_shift g k)

theorem run_frames_spec (niter : Nat) :
    ∀ (g : Grid),
    (g.run_frames niter).length ≤ niter
    ∧ (∀ k (hk : k < (g.run_frames niter).length),
        (g.run_frames niter).get ⟨k, hk⟩ = iterGrid g (k + 1))
    ∧ ((g.run_frames niter).length < niter →
        (iterGrid g ((g.run_frames niter).length)).all_dead_or_alive = true)
    ∧ (∀ k, 0 < k → k < (g.run_frames niter).length →
        (iterGrid g k).all_dead_or_alive = false) := by
  induction niter with
  | zero =>
    intro g
    refine ⟨le_refl 0, ?_, ?_, ?_⟩ <;> simp [Grid.run_frames]
  | succ n ih =>
    intro g
    have hEq : g.run_frames (n+1)
        = if (update_grid g).all_dead_or_alive then [update_grid g]
          else update_grid g :: (update_grid g).run_frames n := rfl
    by_cases hq : (update_grid g).all_dead_or_alive
    · have hframes : g.run_frames (n+1) = [update_grid g] := by
        rw [hEq, if_pos hq]
      rw [hframes]
      refine ⟨by simp, ?_, ?_, ?_⟩
      · intro k hk
        have hk0 : k = 0 := by
          have : k < 1 := by simpa using hk
          omega
        subst hk0
        rfl
      · intro _
        exact hq
      · intro k hk0 hk1
        have : k < 1 := by simpa using hk1
        omega
    · have hframes : g.run_frames (n+1)
          = update_grid g :: (update_grid g).run_frames n := by
        rw [hEq, if_neg hq]
      rw [hframes]
      obtain ⟨ih1, ih2, ih3, ih4⟩ := ih (update_grid g)
      have hq2 : (update_grid g).all_dead_or_alive = false := by
        simpa using hq
      refine ⟨?_, ?_, ?_, ?_⟩
      · simp only [List.length_cons]
        omega
      · intro k hk
        cases k with
        | zero => rfl
        | succ k2 =>
          have hk2 : k2 < ((update_grid g).run_frames n).length := by
            simpa using hk
          have h3 := ih2 k2 hk2
          rw [iterGrid_shift] at h3
          simpa using h3
      · intro hlt
        have hlt2 : ((update_grid g).run_frames n).length < n := by
          simpa using hlt
        have h3 := ih3 hlt2
        rw [iterGrid_shift] at h3
        simpa using h3
      · intro k hk0 hklt
        cases k with
        | zero => omega
        | succ k2 =>
          rcases Nat.eq_zero_or_pos k2 with h20 | h2p
          · subst h20
            exact hq2
          · have hk2 : k2 < ((update_grid g).run_frames n).length := by
              simpa using hklt
            have h4 := ih4 k2 h2p hk2
            rw [iterGrid_shift] at h4
            exact h4

/-- Claim C9: each step of `run(niter)` performs one grid update, then
emits the updated grid as a frame, and only then checks the stop
condition: the loop performs at most `niter` steps, the k-th emitted
frame is the grid after k+1 updates, stopping before the budget is
exhausted happens exactly when the grid after the last performed step
is quiescent while no earlier step produced a quiescent grid, and
quiescence means every cell dead or every cell alive (nonzero); a
stopped loop performs no further step. -/
theorem c9_run_loop (g : Grid) (niter : Nat) :
    (g.run_frames niter).length ≤ niter
    ∧ (∀ k (hk : k < (g.run_frames niter).length),
        (g.run_frames niter).get ⟨k, hk⟩ = iterGrid g (k + 1))
    ∧ ((g.run_frames niter).length < niter →
        (iterGrid g ((g.run_frames niter).length)).all_dead_or_alive = true)
    ∧ (∀ k, 0 < k → k < (g.run_frames niter).length →
        (iterGrid g k).all_dead_or_alive = false)
    ∧ (∀ g2 : Grid, g2.all_dead_or_alive = true ↔
        (∀ r ∈ g2.cells, ∀ x ∈ r, x = 0) ∨ (∀ r ∈ g2.cells, ∀ x ∈ r, x ≠ 0)) := by
  obtain ⟨h1, h2, h3, h4⟩ := run_frames_spec niter g
  exact ⟨h1, h2, h3, h4, all_dead_or_alive_iff⟩

/-- Witness for C9: a concrete run respects its iteration budget. -/
theorem c9_witness : (blinker_grid.run_frames 2).length ≤ 2 :=
  (c9_run_loop blinker_grid 2).1

theorem getD_take {α : Type} (d : α) (l : List α) (k n : Nat) (h : n < k) :
    (l.take k).getD n d = l.getD n d := by
  rw [List.getD_eq_getElem?_getD, List.getD_eq_getElem?_getD,
    List.getElem?_take_of_lt h]

theorem getD_drop {α : Type} (d : α) :
    ∀ (l : List α) (k n : Nat), (l.drop k).getD n d = l.getD (k + n) d
  | [], k, n => by simp
  | a :: l, 0, n => by simp
  | a :: l, k+1, n => by
    rw [List.drop_succ_cons, getD_drop d l k n]
    rw [show k + 1 + n = (k + n) + 1 by omega]
    rfl

theorem foldl_step_range {α : Type} (d : α) (step : Nat → List α → List α)
    (F : Nat → α → α) (off : Nat) (r : List α) (w : Nat)
    (hstep : ∀ (racc : List α) (i : Nat), i < w → off + i < racc.length →
        racc.getD (off + i) d = r.getD (off + i) d →
        step i racc = racc.set (off + i) (F i (racc.getD (off + i) d))) :
    ∀ (k : Nat), k ≤ w → off + k ≤ r.length →
    (List.range k).foldl (fun acc i => step i acc) r
      = r.take off ++ (List.range k).map (fun i => F i (r.getD (off + i) d))
          ++ r.drop (off + k)
  | 0, _, _ => by simp
  | k+1, hkw, hlen => by
    have hk : k ≤ w := by omega
    have hw : off + k ≤ r.length := by omega
    have hlt : off + k < r.length := by omega
    rw [List.range_succ, List.foldl_append,
      foldl_step_range d step F off r w hstep k hk hw,
      List.map_append, List.foldl_cons, List.foldl_nil]
    set T := r.take off with hT
    set M := (List.range k).map (fun i => F i (r.getD (off + i) d)) with hM
    have hSlen : (T ++ M).length = off + k := by
      rw [List.length_append, hT, hM, List.length_take, List.length_map,
        List.length_range]
      omega
    have hPlen : ((T ++ M) ++ r.drop (off + k)).length = r.length := by
      rw [List.length_append, hSlen, List.length_drop]
      omega
    have hgd : ((T ++ M) ++ r.drop (off + k)).getD (off + k) d
        = r.getD (off + k) d := by
      rw [List.getD_append_right _ _ _ _ (le_of_eq hSlen), hSlen, Nat.sub_self,
        List.drop_eq_getElem_cons hlt]
      simp only [List.getD_cons_zero]
      exact (List.getD_eq_getElem r d hlt).symm
    rw [hstep _ k (by omega) (by omega) hgd]
    rw [hgd, List.set_eq_take_cons_drop _ (by omega), List.take_left' hSlen]
    have hdrop : ((T ++ M) ++ r.drop (off + k)).drop (off + k + 1)
        = r.drop (off + k + 1) := by
      calc ((T ++ M) ++ r.drop (off + k)).drop (off + k + 1)
          = (((T ++ M) ++ r.drop (off + k)).drop (off + k)).drop 1 :=
            (List.drop_drop 1 (off + k) _).symm
        _ = (r.drop (off + k)).drop 1 := by rw [List.drop_left' hSlen]
        _ = r.drop (off + k + 1) := List.drop_drop 1 (off + k) r
    rw [hdrop]
    simp only [List.append_assoc, List.map_cons, List.map_nil,
      List.singleton_append, Nat.add_zero]
    rfl

theorem foldl_cells_only (F : Nat → List (List Int) → List (List Int)) :
    ∀ (l : List Nat) (g : Grid),
    l.foldl (fun acc x => { acc with cells := F x acc.cells }) g
      = { g with cells := l.foldl (fun c x => F x c) g.cells }
  | [], g => rfl
  | x :: l, g => by
    rw [List.foldl_cons, List.foldl_cons]
    exact foldl_cells_only F l _

theorem getD_map_range {α : Type} (d : α) (f : Nat → α) (h i : Nat) (hi : i < h) :
    ((List.range h).map f).getD i d = f i := by
  rw [List.getD_eq_getElem?_getD, List.getElem?_map, List.getElem?_range hi]
  rfl

theorem getD_surgery {α : Type} (d : α) (r mid : List α) (off n : Nat)
    (hoff : off ≤ r.length) :
    (r.take off ++ mid ++ r.drop (off + mid.length)).getD n d
      = if n < off then r.getD n d
        else if n < off + mid.length then mid.getD (n - off) d
        else r.getD n d := by
  have htl : (r.take off).length = off := by
    rw [List.length_take]
    omega
  rw [List.append_assoc]
  by_cases h1 : n < off
  · rw [if_pos h1, List.getD_append _ _ _ _ (by omega)]
    exact getD_take d r off n h1
  · rw [if_neg h1, List.getD_append_right _ _ _ _ (by omega), htl]
    by_cases h2 : n < off + mid.length
    · rw [if_pos h2, List.getD_append _ _ _ _ (by omega)]
    · rw [if_neg h2, List.getD_append_right _ _ _ _ (by omega),
        getD_drop d r (off + mid.length) _]
      congr 1
      omega



theorem centre_grid_eval (g : Grid) (pat : List (List Int)) (ri ci : Nat → Nat)
    (hrow : ∀ i, i < pat.length →
        npIndex g.height
            (Int.ofNat i + ((g.height : Int) - (pat.length : Int)) / 2)
          = some (ri i))
    (hcol : ∀ j, j < (pat.headD []).length →
        npIndex g.width
            (Int.ofNat j + ((g.width : Int) - ((pat.headD []).length : Int)) / 2)
          = some (ci j)) :
    g.centre_grid pat
      = some
          { g with
            cells :=
              (List.range pat.length).foldl (fun c i =>
                (List.range (pat.headD []).length).foldl (fun c2 j =>
                  setCell c2 (ri i) (ci j) ((pat.getD i []).getD j 0)) c) g.cells } := by
  show List.foldlM _ g (List.range pat.length) = _
  refine (foldlM_option_foldl
    (fun acc => acc.height = g.height ∧ acc.width = g.width)
    (fun acc i => (List.range (pat.headD []).length).foldl (fun acc2 j =>
        { acc2 with
          cells := setCell acc2.cells (ri i) (ci j) ((pat.getD i []).getD j 0) }) acc)
    (fun acc i => (List.range (pat.headD []).length).foldlM (fun acc2 j =>
        npWriteCell acc2
          (Int.ofNat i + ((g.height : Int) - (pat.length : Int)) / 2)
          (Int.ofNat j + ((g.width : Int) - ((pat.headD []).length : Int)) / 2)
          ((pat.getD i []).getD j 0)) acc)
    (List.range pat.length) g ⟨rfl, rfl⟩ ?_).trans (congrArg some ?_)
  · intro a i hPa hi
    have hi2 : i < pat.length := List.mem_range.mp hi
    have hinner := foldlM_option_foldl
      (fun acc => acc.height = g.height ∧ acc.width = g.width)
      (fun acc2 j =>
        { acc2 with
          cells := setCell acc2.cells (ri i) (ci j) ((pat.getD i []).getD j 0) })
      (fun acc2 j => npWriteCell acc2
          (Int.ofNat i + ((g.height : Int) - (pat.length : Int)) / 2)
          (Int.ofNat j + ((g.width : Int) - ((pat.headD []).length : Int)) / 2)
          ((pat.getD i []).getD j 0))
      (List.range (pat.headD []).length) a hPa ?_
    · refine ⟨hinner, ?_⟩
      have hco := foldl_cells_only (fun j c => setCell c (ri i) (ci j)
        ((pat.getD i []).getD j 0)) (List.range (pat.headD []).length) a
      simp only [hco]
      exact hPa
    · intro a2 j hPa2 hj
      have hj2 : j < (pat.headD []).length := List.mem_range.mp hj
      have hw : npWriteCell a2
          (Int.ofNat i + ((g.height : Int) - (pat.length : Int)) / 2)
          (Int.ofNat j + ((g.width : Int) - ((pat.headD []).length : Int)) / 2)
          ((pat.getD i []).getD j 0)
          = some { a2 with
                   cells := setCell a2.cells (ri i) (ci j)
                     ((pat.getD i []).getD j 0) } := by
        unfold npWriteCell
        rw [hPa2.1, hPa2.2, hrow i hi2, hcol j hj2]
      exact ⟨hw, hPa2⟩
  · have hstep : ∀ (acc : Grid), ∀ i ∈ List.range pat.length,
        (List.range (pat.headD []).length).foldl (fun acc2 j =>
          { acc2 with
            cells := setCell acc2.cells (ri i) (ci j) ((pat.getD i []).getD j 0) }) acc
        = { acc with
            cells := (List.range (pat.headD []).length).foldl (fun c j =>
              setCell c (ri i) (ci j) ((pat.getD i []).getD j 0)) acc.cells } :=
      fun acc i _ => foldl_cells_only (fun j c => setCell c (ri i) (ci j)
        ((pat.getD i []).getD j 0)) (List.range (pat.headD []).length) acc
    exact (List.foldl_ext _ _ g hstep).trans
      (foldl_cells_only (fun i c => (List.range (pat.headD []).length).foldl (fun c2 j =>
        setCell c2 (ri i) (ci j) ((pat.getD i []).getD j 0)) c)
        (List.range pat.length) g)

/-- Claim C5: on a pattern that fits, `centre_grid` writes the pattern
block with its top-left corner at row offset (height - h) / 2 and
column offset (width - w) / 2 (floor division, h by w the pattern
shape), and leaves every cell outside that block unchanged: the
resulting cell matrix is the old one with only that block replaced by
the pattern values. -/
theorem c5_centre_grid (g : Grid) (pat : List (List Int))
    (hcl : g.cells.length = g.height) (hcr : ∀ r ∈ g.cells, r.length = g.width)
    (hfh : pat.length ≤ g.height) (hfw : (pat.headD []).length ≤ g.width) :
    g.centre_grid pat
      = some
          { g with
            cells :=
              g.cells.take ((g.height - pat.length) / 2)
                ++ (List.range pat.length).map (fun i =>
                    (g.cells.getD ((g.height - pat.length) / 2 + i) []).take
                        ((g.width - (pat.headD []).length) / 2)
                      ++ (List.range (pat.headD []).length).map (fun j =>
                          (pat.getD i []).getD j 0)
                      ++ (g.cells.getD ((g.height - pat.length) / 2 + i) []).drop
                          ((g.width - (pat.headD []).length) / 2
                            + (pat.headD []).length))
                ++ g.cells.drop ((g.height - pat.length) / 2 + pat.length) }
    ∧ (∀ g2, g.centre_grid pat = some g2 →
        (∀ i j, i < pat.length → j < (pat.headD []).length →
          getCell g2.cells ((g.height - pat.length) / 2 + i)
              ((g.width - (pat.headD []).length) / 2 + j)
            = (pat.getD i []).getD j 0)
        ∧ (∀ p q,
            (p < (g.height - pat.length) / 2
              ∨ (g.height - pat.length) / 2 + pat.length ≤ p
              ∨ q < (g.width - (pat.headD []).length) / 2
              ∨ (g.width - (pat.headD []).length) / 2
                  + (pat.headD []).length ≤ q) →
            getCell g2.cells p q = getCell g.cells p q)) := by
  have hrow : ∀ i, i < pat.length →
      npIndex g.height (Int.ofNat i + ((g.height : Int) - (pat.length : Int)) / 2)
        = some (i + (g.height - pat.length) / 2) := by
    intro i hi
    simp only [Int.ofNat_eq_natCast]
    unfold npIndex
    rw [if_pos ⟨by omega, by omega⟩]
    congr 1
    omega
  have hcol : ∀ j, j < (pat.headD []).length →
      npIndex g.width
          (Int.ofNat j + ((g.width : Int) - ((pat.headD []).length : Int)) / 2)
        = some (j + (g.width - (pat.headD []).length) / 2) := by
    intro j hj
    simp only [Int.ofNat_eq_natCast]
    unfold npIndex
    rw [if_pos ⟨by omega, by omega⟩]
    congr 1
    omega
  have heval := centre_grid_eval g pat
    (fun i => i + (g.height - pat.length) / 2)
    (fun j => j + (g.width - (pat.headD []).length) / 2) hrow hcol
  have hcells : (List.range pat.length).foldl (fun c i =>
      (List.range (pat.headD []).length).foldl (fun c2 j =>
        setCell c2 (i + (g.height - pat.length) / 2)
          (j + (g.width - (pat.headD []).length) / 2)
          ((pat.getD i []).getD j 0)) c) g.cells
      = g.cells.take ((g.height - pat.length) / 2)
          ++ (List.range pat.length).map (fun i =>
              (g.cells.getD ((g.height - pat.length) / 2 + i) []).take
                  ((g.width - (pat.headD []).length) / 2)
                ++ (List.range (pat.headD []).length).map (fun j =>
                    (pat.getD i []).getD j 0)
                ++ (g.cells.getD ((g.height - pat.length) / 2 + i) []).drop
                    ((g.width - (pat.headD []).length) / 2
                      + (pat.headD []).length))
          ++ g.cells.drop ((g.height - pat.length) / 2 + pat.length) := by
    refine foldl_step_range ([] : List Int)
      (fun i c => (List.range (pat.headD []).length).foldl (fun c2 j =>
        setCell c2 (i + (g.height - pat.length) / 2)
          (j + (g.width - (pat.headD []).length) / 2)
          ((pat.getD i []).getD j 0)) c)
      (fun i row =>
        row.take ((g.width - (pat.headD []).length) / 2)
          ++ (List.range (pat.headD []).length).map (fun j =>
              (pat.getD i []).getD j 0)
          ++ row.drop ((g.width - (pat.headD []).length) / 2
              + (pat.headD []).length))
      ((g.height - pat.length) / 2) g.cells pat.length ?_
      pat.length (le_refl _) (by omega)
    intro racc i hi hlen2 heq
    beta_reduce
    rw [foldl_setCell_row (i + (g.height - pat.length) / 2)
      (fun j => j + (g.width - (pat.headD []).length) / 2)
      (fun j => (pat.getD i []).getD j 0)
      (List.range (pat.headD []).length) racc (by omega)]
    rw [Nat.add_comm i ((g.height - pat.length) / 2)]
    congr 1
    rw [heq]
    have hplt : (g.height - pat.length) / 2 + i < g.cells.length := by omega
    have hrl : (g.cells.getD ((g.height - pat.length) / 2 + i) []).length
        = g.width := by
      rw [List.getD_eq_getElem _ [] hplt]
      exact hcr _ (List.getElem_mem hplt)
    refine foldl_step_range (0 : Int)
      (fun j r2 => r2.set (j + (g.width - (pat.headD []).length) / 2)
        ((pat.getD i []).getD j 0))
      (fun j _ => (pat.getD i []).getD j 0)
      ((g.width - (pat.headD []).length) / 2)
      (g.cells.getD ((g.height - pat.length) / 2 + i) [])
      (pat.headD []).length ?_ (pat.headD []).length (le_refl _) (by omega)
    intro r2 j hj hlen3 heq2
    beta_reduce
    rw [Nat.add_comm j ((g.width - (pat.headD []).length) / 2)]
  have hmain := heval.trans
    (congrArg (fun cs => some { g with cells := cs }) hcells)
  refine ⟨hmain, ?_⟩
  intro g2 hg2
  rw [hmain] at hg2
  set hdN := (g.height - pat.length) / 2 with hd_def
  set wdN := (g.width - (pat.headD []).length) / 2 with wd_def
  set MID := (List.range pat.length).map (fun i =>
      (g.cells.getD (hdN + i) []).take wdN
        ++ (List.range (pat.headD []).length).map (fun j =>
            (pat.getD i []).getD j 0)
        ++ (g.cells.getD (hdN + i) []).drop (wdN + (pat.headD []).length))
    with mid_def
  have hMIDlen : MID.length = pat.length := by
    rw [mid_def]
    simp
  have hcellseq : g2.cells
      = g.cells.take hdN ++ MID ++ g.cells.drop (hdN + pat.length) := by
    rw [← Option.some.inj hg2]
  have hs1 : ∀ n,
      (g.cells.take hdN ++ MID ++ g.cells.drop (hdN + pat.length)).getD n []
        = if n < hdN then g.cells.getD n []
          else if n < hdN + pat.length then MID.getD (n - hdN) []
          else g.cells.getD n [] := by
    intro n
    have h0 := getD_surgery [] g.cells MID hdN n (by omega)
    rw [hMIDlen] at h0
    exact h0
  constructor
  · intro i j hi hj
    unfold getCell
    rw [hcellseq, hs1 (hdN + i), if_neg (by omega), if_pos (by omega),
      show hdN + i - hdN = i from by omega, mid_def,
      getD_map_range [] _ pat.length i hi]
    have hplt : hdN + i < g.cells.length := by omega
    have hrl : (g.cells.getD (hdN + i) []).length = g.width := by
      rw [List.getD_eq_getElem _ [] hplt]
      exact hcr _ (List.getElem_mem hplt)
    have hs2 := getD_surgery 0 (g.cells.getD (hdN + i) [])
      ((List.range (pat.headD []).length).map (fun j => (pat.getD i []).getD j 0))
      wdN (wdN + j) (by omega)
    simp only [List.length_map, List.length_range] at hs2
    rw [hs2, if_neg (by omega), if_pos (by omega),
      show wdN + j - wdN = j from by omega,
      getD_map_range 0 _ (pat.headD []).length j hj]
  · intro p q hpq
    unfold getCell
    rw [hcellseq, hs1 p]
    by_cases hp1 : p < hdN
    · rw [if_pos hp1]
    · rw [if_neg hp1]
      by_cases hp2 : p < hdN + pat.length
      · rw [if_pos hp2]
        have hq : q < wdN ∨ wdN + (pat.headD []).length ≤ q := by
          rcases hpq with h | h | h | h
          · omega
          · omega
          · exact Or.inl h
          · exact Or.inr h
        rw [mid_def, getD_map_range [] _ pat.length (p - hdN) (by omega),
          show hdN + (p - hdN) = p from by omega]
        have hplt : p < g.cells.length := by omega
        have hrl : (g.cells.getD p []).length = g.width := by
          rw [List.getD_eq_getElem _ [] hplt]
          exact hcr _ (List.getElem_mem hplt)
        have hs2 := getD_surgery 0 (g.cells.getD p [])
          ((List.range (pat.headD []).length).map (fun j =>
            (pat.getD (p - hdN) []).getD j 0))
          wdN q (by omega)
        simp only [List.length_map, List.length_range] at hs2
        rw [hs2]
        rcases hq with h | h
        · rw [if_pos h]
        · rw [if_neg (by omega), if_neg (by omega)]
      · rw [if_neg hp2]

/-- Witness for C5: a 3 by 3 pattern centred on an all-dead 9 by 9
grid lands with its top-left corner at (3, 3). -/
theorem c5_witness :
    nine_grid.centre_grid three_pattern
      = some
          { nine_grid with
            cells :=
              nine_grid.cells.take ((nine_grid.height - three_pattern.length) / 2)
                ++ (List.range three_pattern.length).map (fun i =>
                    (nine_grid.cells.getD
                        ((nine_grid.height - three_pattern.length) / 2 + i) []).take
                        ((nine_grid.width - (three_pattern.headD []).length) / 2)
                      ++ (List.range (three_pattern.headD []).length).map (fun j =>
                          (three_pattern.getD i []).getD j 0)
                      ++ (nine_grid.cells.getD
                          ((nine_grid.height - three_pattern.length) / 2 + i) []).drop
                          ((nine_grid.width - (three_pattern.headD []).length) / 2
                            + (three_pattern.headD []).length))
                ++ nine_grid.cells.drop
                    ((nine_grid.height - three_pattern.length) / 2
                      + three_pattern.length) } :=
  (c5_centre_grid nine_grid three_pattern (by decide) (by decide) (by decide)
    (by decide)).1

/-- Counterexample to claim C6 as stated: a 4-row pattern written into
a 3-row grid is not rejected: `centre_grid` succeeds, silently writing
the first row at offset -1, which numpy indexing sends to the opposite
edge of the grid. -/
theorem c6_counterexample :
    conway_grid.height < tall_pattern.length
    ∧ (conway_grid.centre_grid tall_pattern).isSome = true :=
  ⟨by decide, by decide⟩

/-- Claim C6 (amended): `centre_grid` performs no size check and has
no pattern-too-large error: whenever every row index i + hdiff and
every column index j + wdiff falls in numpy's accepted range
[-dim, dim), the write loop succeeds even when the pattern is larger
than the grid, the negative offsets wrapping to the opposite edge; an
index outside that range is an IndexError, not a size error. -/
theorem c6_centre_grid_no_size_check (g : Grid) (pat : List (List Int))
    (hrow : ∀ i, i < pat.length →
      -(g.height : Int)
          ≤ Int.ofNat i + ((g.height : Int) - (pat.length : Int)) / 2
        ∧ Int.ofNat i + ((g.height : Int) - (pat.length : Int)) / 2
          < (g.height : Int))
    (hcol : ∀ j, j < (pat.headD []).length →
      -(g.width : Int)
          ≤ Int.ofNat j + ((g.width : Int) - ((pat.headD []).length : Int)) / 2
        ∧ Int.ofNat j + ((g.width : Int) - ((pat.headD []).length : Int)) / 2
          < (g.width : Int)) :
    (g.centre_grid pat).isSome = true := by
  have hsome : ∀ (m : Nat) (k : Int), -(m : Int) ≤ k → k < (m : Int) →
      npIndex m k = some ((npIndex m k).getD 0) := by
    intro m k h1 h2
    unfold npIndex
    by_cases hk0 : 0 ≤ k
    · rw [if_pos ⟨hk0, h2⟩]
      rfl
    · rw [if_neg (by omega), if_pos ⟨h1, by omega⟩]
      rfl
  have heval := centre_grid_eval g pat
    (fun i => (npIndex g.height
      (Int.ofNat i + ((g.height : Int) - (pat.length : Int)) / 2)).getD 0)
    (fun j => (npIndex g.width
      (Int.ofNat j + ((g.width : Int) - ((pat.headD []).length : Int)) / 2)).getD 0)
    (fun i hi => hsome _ _ (hrow i hi).1 (hrow i hi).2)
    (fun j hj => hsome _ _ (hcol j hj).1 (hcol j hj).2)
  rw [heval]
  rfl

/-- Witness for C6 (amended): the too-tall pattern from the
counterexample satisfies the numpy range bounds, so the write loop
succeeds. -/
theorem c6_witness : (conway_grid.centre_grid tall_pattern).isSome = true :=
  c6_centre_grid_no_size_check conway_grid tall_pattern
    (by
      intro i hi
      simp only [conway_grid, tall_pattern, Int.ofNat_eq_natCast,
        List.length_cons, List.length_nil] at *
      omega)
    (by
      intro j hj
      simp only [conway_grid, tall_pattern, Int.ofNat_eq_natCast,
        List.length_cons, List.length_nil, List.headD_cons] at *
      omega)
